import Mathlib

/-!
Verification of the fold-state manager
(`src/app/scripts/services/fold-state-manager.js`).

The service keeps an in-memory tree of plain JS objects.  Every node is a
mapping from string keys to child nodes, with the boolean marker stored
under the reserved key `"$folded"`.  We embed such values as `JVal`:
either a boolean or an object given by an association list of entries in
insertion order (JS objects preserve string-key insertion order, and
`Object.keys` enumerates own keys in that order; prototype-inherited
properties are outside the model).

Mutation through aliases (`node.$folded = v` on the value returned by
`walkToNode`) is embedded by addressing: a walk returns the address
(list of keys from the root) of the node the JS reference points to, and
assignments become functional updates of the whole tree at that address.
The destructive consumption of the caller's `path` array by
`Array.prototype.shift` is made explicit: every operation also returns
the contents the caller's array has after the call.
-/

namespace FoldStateManager

/-- A JS value stored in the fold-state tree: a boolean (the `$folded`
marker) or a plain object, given as its entries in insertion order. -/
inductive JVal where
  | bool : Bool → JVal
  | obj : List (String × JVal) → JVal

/-- Property lookup `o[k]` on an object's entry list (own properties only);
`none` plays the role of JS `undefined`. -/
def lk : List (String × JVal) → String → Option JVal
  | [], _ => none
  | (k, v) :: es, key => if k = key then some v else lk es key

/-- Property assignment `o[k] = v` on an entry list: updates the entry in
place if the key is present, otherwise appends it (JS insertion order). -/
def setK : List (String × JVal) → String → JVal → List (String × JVal)
  | [], key, v => [(key, v)]
  | (k, w) :: es, key, v => if k = key then (k, v) :: es else (k, w) :: setK es key v

/-- JS truthiness of a value: `false` is falsy, `true` and every object are
truthy. -/
def truthy : JVal → Bool
  | .bool b => b
  | .obj _ => true

/-- JS truthiness of a possibly-undefined value (`undefined` is falsy). -/
def truthyOpt : Option JVal → Bool
  | none => false
  | some v => truthy v

/-- Pure read-only resolution of an address from the root: successive
`o[k]` lookups, `none` when some step is missing or hits a boolean. -/
def getAt : JVal → List String → Option JVal
  | v, [] => some v
  | .bool _, _ :: _ => none
  | .obj es, k :: ks =>
    match lk es k with
    | some v => getAt v ks
    | none => none

/-- Functional update of the tree: at the object addressed by `addr`, set
key `key` to `v`.  Invalid addresses leave the tree unchanged (such writes
never occur in the embedded operations). -/
def setChild : JVal → List String → String → JVal → JVal
  | .obj es, [], key, v => .obj (setK es key v)
  | .bool b, [], _, _ => .bool b
  | .obj es, a :: as, key, v =>
    match lk es a with
    | some c => .obj (setK es a (setChild c as key v))
    | none => .obj es
  | .bool b, _ :: _, _, _ => .bool b

/-- `Object.keys` of a value (own keys in insertion order; empty for
non-objects). -/
def objKeys : JVal → List String
  | .bool _ => []
  | .obj es => es.map Prod.fst

/-- The node literal `{$folded: false}` created for missing path segments. -/
def foldedFalse : JVal := .obj [("$folded", .bool false)]

/-- The `defaultState` literal of the source: note that the five sections
sit under the single root key `"foldState"`. -/
def defaultState : JVal :=
  .obj [("foldState", .obj
    [ ("info", foldedFalse)
    , ("securityDefinitions", foldedFalse)
    , ("tags", foldedFalse)
    , ("paths", foldedFalse)
    , ("definitions", foldedFalse) ])]

/-- Result of `walkToNode`: either the (possibly mutated) tree together
with the address of the returned node, or a thrown error together with the
tree at the time of the throw and the contents left in the caller's path
array (everything after the last `shift()`). -/
inductive WalkRes where
  | ok (tree : JVal) (addr : List String)
  | err (msg : String) (tree : JVal) (rem : List String)

/-- Embedding of `walkToNode`'s loop.  `addr` is the address of `current`;
`previus` is the value of `current` at the start of the iteration, so the
"create and stay at the parent" branch keeps `addr` and only inserts the
`{$folded: false}` child.  A wildcard segment throws.  A primitive
`current` (reached only through a `$folded` segment) makes the assignment
`previus[key] = ...` throw a strict-mode `TypeError`. -/
def walkAux : JVal → List String → List String → WalkRes
  | tree, addr, [] => .ok tree addr
  | tree, addr, key :: rest =>
    if key = "*" then .err "key can not be a wildcard." tree rest
    else
      match getAt tree addr with
      | some (.obj es) =>
        match lk es key with
        | some c =>
          if truthy c then walkAux tree (addr ++ [key]) rest
          else walkAux (setChild tree addr key foldedFalse) addr rest
        | none => walkAux (setChild tree addr key foldedFalse) addr rest
      | some (.bool _) => .err "TypeError: cannot create property on a boolean" tree rest
      | none => .err "TypeError: cannot read property of undefined" tree rest

/-- `walkToNode(path)` starting from the tree root. -/
def walkToNode (tree : JVal) (path : List String) : WalkRes :=
  walkAux tree [] path

/-- The observable state of the service: the in-memory `foldState` tree,
the value persisted under the `"foldState"` key of the storage
collaborator (kept in parsed form, `none` when no value was ever written
in the modelled run), and the identities of the registered change
listeners (a `Set`, held in insertion order). -/
structure FoldStore where
  tree : JVal
  stored : Option JVal
  listeners : List Nat

/-- Arguments a single `invokeChangeListeners(...)` call passes to every
registered listener: none for bulk operations, the mutated node (by its
address) and the new folded value for single-node operations. -/
inductive NotifyArgs where
  | noArgs
  | nodeVal (addr : List String) (value : Bool)

/-- Observable outcome of one public operation: the value returned to the
caller (or the error thrown), the state afterwards, the notification
events emitted (each event is one `invokeChangeListeners` call reaching
every registered listener), and the contents the caller's path array has
after the call (`Array.prototype.shift` empties it segment by segment). -/
structure JsOutcome (α : Type) where
  res : Except String α
  store : FoldStore
  notifs : List NotifyArgs
  pathAfter : List String

/-- A value passed as the `path` argument: either a real JS array of
string segments, or any non-array value (rejected by `_.isArray`). -/
inductive PathArg where
  | arr (p : List String)
  | notArr

/-- `invokeChangeListeners(...)`: serializes the whole tree into storage,
then calls every registered listener once with the given arguments. -/
def invokeChangeListeners (st : FoldStore) (args : NotifyArgs) :
    FoldStore × List NotifyArgs :=
  ({ st with stored := some st.tree }, [args])

/-- `changeFold(path, value)`: resolve the node, set (or toggle, when
`value` is `none`) its `$folded` property through the alias, then persist
and notify.  A primitive resolved node makes the strict-mode assignment
throw; a falsy resolved node is silently ignored (dead branch: the walk
always returns a truthy value). -/
def changeFold (st : FoldStore) (path : List String) (value : Option Bool) :
    JsOutcome Unit :=
  match walkToNode st.tree path with
  | .err m t rem =>
    { res := .error m, store := { st with tree := t }, notifs := [], pathAfter := rem }
  | .ok t addr =>
    match getAt t addr with
    | some (.obj es) =>
      let v := value.getD (!truthyOpt (lk es "$folded"))
      let t' := setChild t addr "$folded" (.bool v)
      let (st', evs) := invokeChangeListeners { st with tree := t' } (.nodeVal addr v)
      { res := .ok (), store := st', notifs := evs, pathAfter := [] }
    | some (.bool true) =>
      { res := .error "TypeError: cannot create property on a boolean",
        store := { st with tree := t }, notifs := [], pathAfter := [] }
    | _ =>
      { res := .ok (), store := { st with tree := t }, notifs := [], pathAfter := [] }

/-- The `TypeError` outcome thrown by the `_.isArray` guards; the state is
untouched. -/
def notArrayOutcome (st : FoldStore) (α : Type) : JsOutcome α :=
  { res := .error "path should be an array.", store := st, notifs := [], pathAfter := [] }

/-- `fold(path)`. -/
def fold (st : FoldStore) : PathArg → JsOutcome Unit
  | .arr p => changeFold st p (some true)
  | .notArr => notArrayOutcome st Unit

/-- `unfold(path)`. -/
def unfold (st : FoldStore) : PathArg → JsOutcome Unit
  | .arr p => changeFold st p (some false)
  | .notArr => notArrayOutcome st Unit

/-- `toggleFold(path)`. -/
def toggleFold (st : FoldStore) : PathArg → JsOutcome Unit
  | .arr p => changeFold st p none
  | .notArr => notArrayOutcome st Unit

/-- `isFolded(path)`: resolve the node and return its `$folded` property
(`none` plays JS `undefined`).  No persistence and no notification; the
tree may still gain nodes through the walk. -/
def isFolded (st : FoldStore) : PathArg → JsOutcome (Option JVal)
  | .notArr => notArrayOutcome st (Option JVal)
  | .arr p =>
    match walkToNode st.tree p with
    | .err m t rem =>
      { res := .error m, store := { st with tree := t }, notifs := [], pathAfter := rem }
    | .ok t addr =>
      match getAt t addr with
      | some (.obj es) =>
        { res := .ok (lk es "$folded"), store := { st with tree := t },
          notifs := [], pathAfter := [] }
      | some (.bool true) =>
        -- reading `$folded` off the primitive `true` yields `undefined`
        { res := .ok none, store := { st with tree := t }, notifs := [], pathAfter := [] }
      | _ =>
        -- `if (node)` falls through and the function returns `undefined`
        { res := .ok none, store := { st with tree := t }, notifs := [], pathAfter := [] }

/-- The action `visit` applies to a matched node, acting on the tree at
the node's address (the JS callback mutates the node through its alias).
For `toggleFoldAll` this is `node.$folded = !node.$folded`; on a primitive
node the strict-mode assignment throws. -/
def flipAct (t : JVal) (addr : List String) : Except String JVal :=
  match getAt t addr with
  | some (.obj es) => .ok (setChild t addr "$folded" (.bool (!truthyOpt (lk es "$folded"))))
  | some (.bool _) => .error "TypeError: cannot create property on a boolean"
  | none => .error "TypeError: cannot read property of undefined"

/-- One pending activation of the `visit` recursion: either a `visit(path,
fn)` call, or the `forEach` loop over the remaining snapshot of
`Object.keys(root)` (with the enclosing call's `pathToRoot` and
`restOfPath`). -/
inductive VisitCall where
  | path (p : List String)
  | keys (ks : List String) (pathToRoot : List String) (restOfPath : List String)

/-- Embedding of `visit(path, fn)`.  JS recursion is modelled with
explicit fuel standing for the engine's call-stack limit: every activation
consumes one unit, and exhaustion is the engine's stack-overflow throw
(`visit` recurses forever when a visited node owns a key `"*"`).  The
returned list is the content of the top-level caller's `path` array after
the call: the non-wildcard branch consumes it via `walkToNode(path)`,
while the wildcard branch only reads it (`slice` copies, and
`path.splice(0, -1)` removes nothing). -/
def visitGo (act : JVal → List String → Except String JVal) :
    Nat → JVal → VisitCall → Except String Unit × JVal × List String
  | 0, t, _ => (.error "RangeError: maximum call stack size exceeded", t, [])
  | fuel + 1, t, .path p =>
    if p.getLast? ≠ some "*" then
      match walkToNode t p with
      | .err m t' rem => (.error m, t', rem)
      | .ok t' addr =>
        if truthyOpt (getAt t' addr) then
          match act t' addr with
          | .ok t'' => (.ok (), t'', [])
          | .error m => (.error m, t', [])
        else (.ok (), t', [])
    else
      let pathToRoot := p.takeWhile (fun s => s != "*")
      let restOfPath := p.dropWhile (fun s => s != "*")
      match walkToNode t pathToRoot with
      | .err m t' _ => (.error m, t', p)
      | .ok t' rootAddr =>
        match getAt t' rootAddr with
        | some (.obj es) =>
          match visitGo act fuel t' (.keys (es.map Prod.fst) pathToRoot restOfPath) with
          | (r, t'', _) => (r, t'', p)
        | _ => (.ok (), t', p)
  | _ + 1, t, .keys [] _ _ => (.ok (), t, [])
  | fuel + 1, t, .keys (k :: ks) pathToRoot restOfPath =>
    if k = "$folded" then visitGo act fuel t (.keys ks pathToRoot restOfPath)
    else
      -- `path.splice(0, -1)` returns `[]`, so the walk starts at the root
      -- with `[nodeName]` alone
      match walkToNode t [k] with
      | .err m t' _ => (.error m, t', [])
      | .ok t' addr =>
        if restOfPath = ["*"] then
          match act t' addr with
          | .ok t'' => visitGo act fuel t'' (.keys ks pathToRoot restOfPath)
          | .error m => (.error m, t', [])
        else
          match visitGo act fuel t' (.path (pathToRoot ++ [k] ++ restOfPath.drop 1)) with
          | (.ok _, t'', _) => visitGo act fuel t'' (.keys ks pathToRoot restOfPath)
          | (.error m, t'', _) => (.error m, t'', [])

/-- The modelled JS call-stack budget for the recursive traversals. -/
def stackLimit : Nat := 10000

/-- `toggleFoldAll(path)`: run `visit` with the flip action, then persist
and notify once with no arguments.  The `_.isArray` guard lives inside
`visit`. -/
def toggleFoldAll (st : FoldStore) : PathArg → JsOutcome Unit
  | .notArr => notArrayOutcome st Unit
  | .arr p =>
    match visitGo flipAct stackLimit st.tree (.path p) with
    | (.ok _, t', pAfter) =>
      let (st', evs) := invokeChangeListeners { st with tree := t' } .noArgs
      { res := .ok (), store := st', notifs := evs, pathAfter := pAfter }
    | (.error m, t', pAfter) =>
      { res := .error m, store := { st with tree := t' }, notifs := [], pathAfter := pAfter }

/-- One pending activation of the `isAllFolded` recursion, like
`VisitCall`: a full `isAllFolded(path)` call or the `every` loop over the
remaining snapshot of `Object.keys(root)`. -/
inductive AllCall where
  | path (p : List String)
  | keys (ks : List String) (pathToRoot : List String) (restOfPath : List String)

/-- Embedding of the recursive core of `isAllFolded(path)` (all checks
except the `_.isArray` guard, which the wrapper performs on the raw
argument).  Fuel models the JS call stack as in `visitGo`. -/
def isAllGo : Nat → JVal → AllCall → Except String Bool × JVal
  | 0, t, _ => (.error "RangeError: maximum call stack size exceeded", t)
  | fuel + 1, t, .path p =>
    if p.getLast? ≠ some "*" then
      (.error "Path should end with \"*\" in this method.", t)
    else
      let pathToRoot := p.takeWhile (fun s => s != "*")
      let restOfPath := p.dropWhile (fun s => s != "*")
      match walkToNode t pathToRoot with
      | .err m t' _ => (.error m, t')
      | .ok t' rootAddr =>
        match getAt t' rootAddr with
        | some (.obj es) =>
          isAllGo fuel t' (.keys (es.map Prod.fst) pathToRoot restOfPath)
        | _ => (.ok false, t')  -- `if (!_.isObject(root)) return false`
  | _ + 1, t, .keys [] _ _ => (.ok true, t)
  | fuel + 1, t, .keys (k :: ks) pathToRoot restOfPath =>
    if k = "$folded" then isAllGo fuel t (.keys ks pathToRoot restOfPath)
    else
      -- `path.splice(0, -1)` returns `[]`: the walk resolves `[nodeName]`
      -- against the tree root
      match walkToNode t [k] with
      | .err m t' _ => (.error m, t')
      | .ok t' addr =>
        if !truthyOpt (getAt t' addr) then (.ok false, t')
        else if restOfPath = ["*"] then
          let b := match getAt t' addr with
            | some (.obj es) => !truthyOpt (lk es "$folded")
            | _ => true  -- `!node.$folded` with `node` the primitive `true`
          if b then isAllGo fuel t' (.keys ks pathToRoot restOfPath)
          else (.ok false, t')
        else
          match isAllGo fuel t' (.path (pathToRoot ++ [k] ++ restOfPath.drop 1)) with
          | (.ok true, t'') => isAllGo fuel t'' (.keys ks pathToRoot restOfPath)
          | (.ok false, t'') => (.ok false, t'')
          | (.error m, t'') => (.error m, t'')

/-- `isAllFolded(path)`.  The caller's array is never consumed: the walks
receive fresh `slice`/`concat` results, and `splice(0, -1)` is a no-op. -/
def isAllFolded (st : FoldStore) : PathArg → JsOutcome Bool
  | .notArr => notArrayOutcome st Bool
  | .arr p =>
    match isAllGo stackLimit st.tree (.path p) with
    | (.ok b, t') =>
      { res := .ok b, store := { st with tree := t' }, notifs := [], pathAfter := p }
    | (.error m, t') =>
      { res := .error m, store := { st with tree := t' }, notifs := [], pathAfter := p }

/-- `onFoldChanged(fn)`: `Set.add`, deduplicated by identity. -/
def onFoldChanged (st : FoldStore) (fn : Nat) : FoldStore :=
  if fn ∈ st.listeners then st else { st with listeners := st.listeners ++ [fn] }

/-- `reset()`: writes `JSON.stringify(defaultState)` to storage; the
in-memory tree and the listeners are untouched and nobody is notified. -/
def reset (st : FoldStore) : JsOutcome Unit :=
  { res := .ok (), store := { st with stored := some defaultState },
    notifs := [], pathAfter := [] }

/-- The interaction of `localStorage.getItem('foldState')` and
`JSON.parse` at construction time, as seen by the service: the item was
absent (`getItem` returned `null`, and `JSON.parse(null)` parses the
coerced string `"null"` to the falsy `null`), or parsing produced a tree
value, or `JSON.parse` threw a `SyntaxError`. -/
inductive ReadResult where
  | absent
  | parsed (v : JVal)
  | parseError

/-- Construction of the initial `foldState`:
`var foldState = JSON.parse(localStorage.getItem('foldState'));
if (!foldState) { foldState = defaultState; }` — there is no `try`/`catch`
anywhere in the service, so a `SyntaxError` from `JSON.parse` propagates
to the caller. -/
def initFoldState : ReadResult → Except String JVal
  | .absent => .ok defaultState
  | .parsed v => .ok (if truthy v then v else defaultState)
  | .parseError => .error "SyntaxError: unexpected token in JSON"

/-- Resuming a walk: what `walkAux` does with further segments after an
earlier portion of the path has been processed. -/
def walkContinue : WalkRes → List String → WalkRes
  | .ok t a, p => walkAux t a p
  | .err m t rem, p => .err m t (rem ++ p)

/-- The `$folded` property of the node addressed by `p`, read without any
side effect (`none` when the node is absent, is a primitive, or carries no
marker). -/
def foldedValueAt (t : JVal) (p : List String) : Option JVal :=
  match getAt t p with
  | some (.obj es) => lk es "$folded"
  | _ => none

/-- A concrete path segment: not the wildcard sentinel and not the
reserved marker key. -/
def validSeg (s : String) : Bool := s != "*" && s != "$folded"

/-- A valid non-wildcard path in the sense of the specification. -/
def validPath (p : List String) : Bool := p.all validSeg

/-- Input for the `toggleFoldAll` failing run: a `paths` section with two
unfolded operations and one registered subscriber. -/
def cexToggleAllStore : FoldStore :=
  { tree := .obj [("paths", .obj
      [ ("$folded", .bool false)
      , ("a", .obj [("$folded", .bool false)])
      , ("b", .obj [("$folded", .bool false)]) ])],
    stored := none, listeners := [0] }

/-- The observable outcome of `toggleFoldAll(['paths', '*'])` on
`cexToggleAllStore`. -/
def cexToggleAllOut : JsOutcome Unit :=
  toggleFoldAll cexToggleAllStore (.arr ["paths", "*"])

/-- Input for the `isAllFolded` failing run: `paths` has a single child
`a` which is folded. -/
def cexAllTree : JVal :=
  .obj [("paths", .obj [("$folded", .bool false), ("a", .obj [("$folded", .bool true)])])]

/-- The observable outcome of `isAllFolded(['paths', '*'])` on
`cexAllTree`. -/
def cexAllOut : JsOutcome Bool :=
  isAllFolded { tree := cexAllTree, stored := none, listeners := [] } (.arr ["paths", "*"])

/-! ### General lemmas about lookups, updates and walks -/

theorem getAt_append (a : List String) : ∀ (t : JVal) (b : List String),
    getAt t (a ++ b) = (getAt t a).bind (fun w => getAt w b) := by
  induction a with
  | nil => intro t b; simp [getAt]
  | cons k ks ih =>
    intro t b
    cases t with
    | bool c => simp [getAt]
    | obj es =>
      simp only [List.cons_append, getAt]
      cases hlk : lk es k with
      | none => simp
      | some v => simp [ih]

theorem lk_setK_self (es : List (String × JVal)) (k : String) (v : JVal) :
    lk (setK es k v) k = some v := by
  induction es with
  | nil => simp [setK, lk]
  | cons e es ih =>
    obtain ⟨k', w⟩ := e
    by_cases h : k' = k
    · simp [setK, h, lk]
    · simp [setK, h, lk, ih]

theorem getAt_setChild_self : ∀ (p : List String) (t : JVal)
    (es : List (String × JVal)) (k : String) (v : JVal),
    getAt t p = some (.obj es) →
    getAt (setChild t p k v) p = some (.obj (setK es k v)) := by
  intro p
  induction p with
  | nil =>
    intro t es k v h
    simp only [getAt, Option.some.injEq] at h
    subst h
    simp [setChild, getAt]
  | cons a as ih =>
    intro t es k v h
    cases t with
    | bool b => simp [getAt] at h
    | obj cs =>
      simp only [getAt] at h
      cases hlk : lk cs a with
      | none => rw [hlk] at h; simp at h
      | some c =>
        rw [hlk] at h
        simp only [setChild, hlk, getAt, lk_setK_self]
        exact ih c es k v h

theorem walkAux_append : ∀ (q : List String) (t : JVal) (addr p : List String),
    walkAux t addr (q ++ p) = walkContinue (walkAux t addr q) p := by
  intro q
  induction q with
  | nil => intro t addr p; simp [walkAux, walkContinue]
  | cons k q ih =>
    intro t addr p
    simp only [List.cons_append, walkAux]
    by_cases hk : k = "*"
    · simp [hk, walkContinue]
    · simp only [hk, if_false]
      cases hg : getAt t addr with
      | none => simp [walkContinue]
      | some v =>
        cases v with
        | bool b => simp [walkContinue]
        | obj es =>
          cases hlk : lk es k with
          | none => simp [hlk, ih]
          | some c =>
            by_cases hc : truthy c
            · simp [hlk, hc, ih]
            · simp [hlk, hc, ih]

theorem walk_ok_existing : ∀ (p : List String) (t : JVal) (addr : List String)
    (es : List (String × JVal)),
    "*" ∉ p →
    getAt t (addr ++ p) = some (.obj es) →
    walkAux t addr p = .ok t (addr ++ p) := by
  intro p
  induction p with
  | nil => intro t addr es _ _; simp [walkAux]
  | cons k rest ih =>
    intro t addr es hstar h
    have hk : k ≠ "*" := fun hh => hstar (hh ▸ List.mem_cons_self _ _)
    have hrest : "*" ∉ rest := fun hh => hstar (List.mem_cons_of_mem _ hh)
    rw [getAt_append] at h
    cases hA : getAt t addr with
    | none => rw [hA] at h; simp at h
    | some w =>
      rw [hA] at h
      cases w with
      | bool b => simp [getAt] at h
      | obj cs =>
        simp only [Option.some_bind, getAt] at h
        cases hlk : lk cs k with
        | none => rw [hlk] at h; simp at h
        | some c =>
          rw [hlk] at h
          have hc : truthy c = true := by
            cases c with
            | obj _ => rfl
            | bool b =>
              cases rest with
              | nil => simp [getAt] at h
              | cons r rs => simp [getAt] at h
          have hstep : getAt t (addr ++ [k]) = some c := by
            rw [getAt_append, hA]
            simp [getAt, hlk]
          have hnext : getAt t ((addr ++ [k]) ++ rest) = some (.obj es) := by
            rw [getAt_append, hstep]
            simpa using h
          have := ih t (addr ++ [k]) es hrest hnext
          simp only [walkAux, hk, if_false, hA, hlk, hc, if_true]
          simpa [List.append_assoc] using this

theorem walkToNode_existing {t : JVal} {p : List String} {es : List (String × JVal)}
    (hstar : "*" ∉ p) (hex : getAt t p = some (.obj es)) :
    walkToNode t p = .ok t p := by
  have := walk_ok_existing p t [] es hstar (by simpa using hex)
  simpa [walkToNode] using this

theorem star_not_mem_of_validPath {p : List String} (h : validPath p = true) :
    "*" ∉ p := by
  intro hm
  have := List.all_eq_true.mp h _ hm
  simp [validSeg] at this

/-- On a path whose addressed node exists (every segment resolves through
objects), `changeFold` lands exactly on that node, sets its marker, and
persists and notifies once. -/
theorem changeFold_existing {st : FoldStore} {p : List String}
    {es : List (String × JVal)} (hstar : "*" ∉ p)
    (hex : getAt st.tree p = some (.obj es)) (v : Option Bool) :
    changeFold st p v =
      { res := .ok (),
        store := { st with
          tree := setChild st.tree p "$folded" (.bool (v.getD (!truthyOpt (lk es "$folded")))),
          stored := some (setChild st.tree p "$folded"
            (.bool (v.getD (!truthyOpt (lk es "$folded"))))) },
        notifs := [.nodeVal p (v.getD (!truthyOpt (lk es "$folded")))],
        pathAfter := [] } := by
  have hw := walkToNode_existing hstar hex
  simp only [changeFold, hw, hex, invokeChangeListeners]

/-- On a path whose addressed node exists, `isFolded` returns that node's
`$folded` property and changes nothing. -/
theorem isFolded_existing {st : FoldStore} {p : List String}
    {es : List (String × JVal)} (hstar : "*" ∉ p)
    (hex : getAt st.tree p = some (.obj es)) :
    isFolded st (.arr p) =
      { res := .ok (lk es "$folded"), store := st, notifs := [], pathAfter := [] } := by
  have hw := walkToNode_existing hstar hex
  simp only [isFolded, hw, hex]

theorem changeFold_pathAfter (st : FoldStore) (p : List String) (v : Option Bool)
    (h : (changeFold st p v).res = .ok ()) : (changeFold st p v).pathAfter = [] := by
  cases hw : walkToNode st.tree p with
  | err m t rem =>
    simp only [changeFold, hw] at h
    exact Except.noConfusion h
  | ok t addr =>
    cases hg : getAt t addr with
    | none => simp [changeFold, hw, hg]
    | some val =>
      cases val with
      | obj es => simp [changeFold, hw, hg, invokeChangeListeners]
      | bool b => cases b <;> simp [changeFold, hw, hg]

theorem isFolded_pathAfter (st : FoldStore) (p : List String) (v : Option JVal)
    (h : (isFolded st (.arr p)).res = .ok v) : (isFolded st (.arr p)).pathAfter = [] := by
  cases hw : walkToNode st.tree p with
  | err m t rem =>
    simp only [isFolded, hw] at h
    exact Except.noConfusion h
  | ok t addr =>
    cases hg : getAt t addr with
    | none => simp [isFolded, hw, hg]
    | some val =>
      cases val with
      | obj es => simp [isFolded, hw, hg]
      | bool b => cases b <;> simp [isFolded, hw, hg]

/-! ### Claim theorems -/

/-- Claim C1, evaluated at a failing input.  The claim says
`toggleFoldAll(['paths', '*'])` flips the folded marker of every direct
child of `paths`, leaves all other folded markers unchanged, and notifies
subscribers once.  On a `paths` node with children `a` and `b` the embedded
code leaves `paths.a.$folded` and `paths.b.$folded` untouched, creates new
root-level nodes `a` and `b`, and writes the root's own `$folded` marker:
`visit` builds each child's path with `path.splice(0, -1)`, which returns
`[]` and removes nothing (a `slice` was evidently intended), so every child
name is resolved against the tree root — contradicting the code's own
comment "construct the path to this node and get the node from the
foldState".  Only the single no-argument notification agrees with the
claim. -/
theorem toggleFoldAll_splice_failing_input :
    cexToggleAllOut.res = .ok () ∧
    getAt cexToggleAllOut.store.tree ["paths", "a", "$folded"] = some (.bool false) ∧
    getAt cexToggleAllOut.store.tree ["paths", "b", "$folded"] = some (.bool false) ∧
    getAt cexToggleAllStore.tree ["a"] = none ∧
    getAt cexToggleAllStore.tree ["$folded"] = none ∧
    getAt cexToggleAllOut.store.tree ["a"] = some foldedFalse ∧
    getAt cexToggleAllOut.store.tree ["b"] = some foldedFalse ∧
    getAt cexToggleAllOut.store.tree ["$folded"] = some (.bool false) ∧
    cexToggleAllOut.notifs = [.noArgs] :=
  ⟨rfl, rfl, rfl, rfl, rfl, rfl, rfl, rfl, rfl⟩

/-- Claim C2, evaluated at failing inputs.  The claim says
`isAllFolded(['paths', '*'])` is true iff every direct child of `paths` has
`folded === false`, and false when `paths` does not exist.  First input:
`paths` has a single child `a` with `$folded: true`, yet the code returns
`true` — the same `path.splice(0, -1)` slip as in `visit` makes the `every`
callback test root-level nodes instead of the children of `paths`.  Second
input: `paths` does not exist, yet the code returns `true` — `walkToNode`
creates the missing node and returns the (object-shaped) root, so the
`!_.isObject(root)` guard that would return `false` is dead. -/
theorem isAllFolded_splice_failing_input :
    getAt cexAllTree ["paths", "a", "$folded"] = some (.bool true) ∧
    cexAllOut.res = .ok true ∧
    getAt (JVal.obj [("info", foldedFalse)]) ["paths"] = none ∧
    (isAllFolded { tree := .obj [("info", foldedFalse)], stored := none, listeners := [] }
      (.arr ["paths", "*"])).res = .ok true :=
  ⟨rfl, rfl, rfl, rfl⟩

/-- Claim C3, counterexample.  The claim says construction never raises a
parse error for any persisted value.  The source reads
`JSON.parse(localStorage.getItem('foldState'))` with no `try`/`catch`, so a
persisted string that fails to parse makes construction throw. -/
theorem initFoldState_parseError_throws :
    initFoldState .parseError = .error "SyntaxError: unexpected token in JSON" := rfl

/-- Claim C3 (amended): construction falls back to the default tree when
the persisted value is absent or parses to a falsy value; a persisted value
that fails to parse raises the parse error to the caller. -/
theorem initFoldState_fallback_spec :
    initFoldState .absent = .ok defaultState ∧
    (∀ v : JVal, truthy v = true → initFoldState (.parsed v) = .ok v) ∧
    (∀ v : JVal, truthy v = false → initFoldState (.parsed v) = .ok defaultState) ∧
    initFoldState .parseError = .error "SyntaxError: unexpected token in JSON" := by
  refine ⟨rfl, ?_, ?_, rfl⟩ <;> intro v hv <;> simp [initFoldState, hv]

/-- Witness for the amended C3 theorem at concrete parse results. -/
theorem initFoldState_fallback_spec_w :
    initFoldState (.parsed defaultState) = .ok defaultState ∧
    initFoldState (.parsed (.bool false)) = .ok defaultState :=
  ⟨initFoldState_fallback_spec.2.1 defaultState rfl,
   initFoldState_fallback_spec.2.2.1 (.bool false) rfl⟩

/-- Claim C4, counterexample.  On the empty tree and the valid one-segment
path `['a']`, `fold(['a'])` creates the missing node but — by the
stay-at-parent quirk — sets the marker on the root, so the subsequent
`isFolded(['a'])` descends into the freshly created child and returns
`false`, not `true` as the claim demands. -/
theorem fold_then_isFolded_missing_cex :
    getAt (JVal.obj []) ["a"] = none ∧
    (isFolded (fold { tree := .obj [], stored := none, listeners := [] } (.arr ["a"])).store
        (.arr ["a"])).res = .ok (some (.bool false)) ∧
    ¬ (isFolded (fold { tree := .obj [], stored := none, listeners := [] } (.arr ["a"])).store
        (.arr ["a"])).res = .ok (some (.bool true)) := by
  refine ⟨rfl, rfl, ?_⟩
  intro h
  have h2 : (Except.ok (some (JVal.bool false)) : Except String (Option JVal)) =
      .ok (some (.bool true)) := h
  injection h2 with h3
  injection h3 with h4
  injection h4 with h5
  exact Bool.noConfusion h5

/-- Claim C4 (amended): for every valid non-wildcard path whose addressed
node already exists, `fold(p)` followed by `isFolded(p)` returns `true` and
`unfold(p)` followed by `isFolded(p)` returns `false` (each call gets a
fresh copy of `p`).  When segments are missing, the walk's
create-and-stay-at-parent quirk makes the two calls target different
nodes: see the counterexample. -/
theorem fold_unfold_isFolded_existing (st : FoldStore) (p : List String)
    (es : List (String × JVal))
    (hv : validPath p = true)
    (hex : getAt st.tree p = some (.obj es)) :
    (isFolded (fold st (.arr p)).store (.arr p)).res = .ok (some (.bool true)) ∧
    (isFolded (unfold st (.arr p)).store (.arr p)).res = .ok (some (.bool false)) := by
  have hstar := star_not_mem_of_validPath hv
  constructor
  · have hfold : fold st (.arr p) = changeFold st p (some true) := rfl
    have hch := changeFold_existing hstar hex (some true)
    have hset := getAt_setChild_self p st.tree es "$folded"
      (.bool ((some true).getD (!truthyOpt (lk es "$folded")))) hex
    rw [hfold, hch]
    rw [isFolded_existing hstar hset]
    simp [lk_setK_self]
  · have hunf : unfold st (.arr p) = changeFold st p (some false) := rfl
    have hch := changeFold_existing hstar hex (some false)
    have hset := getAt_setChild_self p st.tree es "$folded"
      (.bool ((some false).getD (!truthyOpt (lk es "$folded")))) hex
    rw [hunf, hch]
    rw [isFolded_existing hstar hset]
    simp [lk_setK_self]

/-- Witness for the amended C4 theorem on a concrete existing path. -/
theorem fold_unfold_isFolded_existing_w :
    (isFolded (fold { tree := .obj [("a", foldedFalse)], stored := none, listeners := [] }
        (.arr ["a"])).store (.arr ["a"])).res = .ok (some (.bool true)) ∧
    (isFolded (unfold { tree := .obj [("a", foldedFalse)], stored := none, listeners := [] }
        (.arr ["a"])).store (.arr ["a"])).res = .ok (some (.bool false)) :=
  fold_unfold_isFolded_existing
    { tree := .obj [("a", foldedFalse)], stored := none, listeners := [] }
    ["a"] [("$folded", .bool false)] rfl rfl

/-- Claim C5: single-node resolution consumes segments in order and throws
on a consumed wildcard segment (first conjunct: after any successful walk
over the prefix, the wildcard segment raises and the caller's array keeps
exactly the segments after the wildcard); a missing child is created as
`{$folded: false}` while the walk continues from the parent (second
conjunct); consequently the resolved node can be a proper ancestor of the
addressed node (third conjunct: resolving `['a', 'b']` with `b` missing
returns the node at address `['a']`). -/
theorem walkToNode_spec :
    (∀ (t t' : JVal) (q r a : List String),
      walkAux t [] q = .ok t' a →
      walkToNode t (q ++ "*" :: r) = .err "key can not be a wildcard." t' r) ∧
    (∀ (t : JVal) (addr : List String) (es : List (String × JVal)) (k : String)
        (rest : List String),
      getAt t addr = some (.obj es) →
      k ≠ "*" →
      truthyOpt (lk es k) = false →
      walkAux t addr (k :: rest) = walkAux (setChild t addr k foldedFalse) addr rest) ∧
    (walkToNode (.obj [("a", foldedFalse)]) ["a", "b"] =
      .ok (.obj [("a", .obj [("$folded", .bool false), ("b", foldedFalse)])]) ["a"]) := by
  refine ⟨?_, ?_, rfl⟩
  · intro t t' q r a h
    rw [walkToNode, walkAux_append, h]
    simp [walkContinue, walkAux]
  · intro t addr es k rest hg hk hf
    cases hlk : lk es k with
    | none => simp [walkAux, hk, hg, hlk]
    | some c =>
      rw [hlk] at hf
      simp only [truthyOpt] at hf
      simp [walkAux, hk, hg, hlk, hf]

/-- Witness for C5 at concrete inputs. -/
theorem walkToNode_spec_w :
    walkToNode (.obj [("x", foldedFalse)]) ["x", "*", "y"] =
      .err "key can not be a wildcard." (.obj [("x", foldedFalse)]) ["y"] ∧
    walkAux (.obj []) [] ["b"] = walkAux (setChild (.obj []) [] "b" foldedFalse) [] [] :=
  ⟨walkToNode_spec.1 (.obj [("x", foldedFalse)]) (.obj [("x", foldedFalse)])
      ["x"] ["y"] ["x"] rfl,
   walkToNode_spec.2.1 (.obj []) [] [] "b" [] rfl (by decide) rfl⟩

/-- Claim C6, counterexample.  The claim says `isFolded(p)` returns
`undefined` when the node addressed by `p` does not exist.  With tree
`{a: {$folded: true}}` the node at `['a', 'b']` does not exist, yet
`isFolded(['a', 'b'])` returns `true` — resolution creates the missing
child and returns its parent `a`, whose marker is read. -/
theorem isFolded_missing_node_cex :
    getAt (JVal.obj [("a", .obj [("$folded", .bool true)])]) ["a", "b"] = none ∧
    (isFolded { tree := .obj [("a", .obj [("$folded", .bool true)])], stored := none,
                listeners := [] } (.arr ["a", "b"])).res = .ok (some (.bool true)) ∧
    ¬ (isFolded { tree := .obj [("a", .obj [("$folded", .bool true)])], stored := none,
                  listeners := [] } (.arr ["a", "b"])).res = .ok none := by
  refine ⟨rfl, rfl, ?_⟩
  intro h
  have h2 : (Except.ok (some (JVal.bool true)) : Except String (Option JVal)) =
      .ok none := h
  injection h2 with h3
  exact Option.noConfusion h3

/-- Claim C6 (amended): when the node addressed by a valid path exists and
carries a boolean marker, `isFolded` returns that marker (first conjunct);
when the addressed node does not exist, resolution lands on another node
(an ancestor) and `isFolded` returns that node's marker instead of
`undefined` (second conjunct, at the counterexample's input). -/
theorem isFolded_spec_amended :
    (∀ (st : FoldStore) (p : List String) (es : List (String × JVal)) (b : Bool),
      validPath p = true →
      getAt st.tree p = some (.obj es) →
      lk es "$folded" = some (.bool b) →
      (isFolded st (.arr p)).res = .ok (some (.bool b))) ∧
    (isFolded { tree := .obj [("a", .obj [("$folded", .bool true)])], stored := none,
                listeners := [] } (.arr ["a", "b"])).res = .ok (some (.bool true)) := by
  refine ⟨?_, rfl⟩
  intro st p es b hv hex hm
  have hstar := star_not_mem_of_validPath hv
  rw [isFolded_existing hstar hex]
  simp [hm]

/-- Witness for the amended C6 theorem on a concrete existing path. -/
theorem isFolded_spec_amended_w :
    (isFolded { tree := .obj [("x", .obj [("$folded", .bool true)])], stored := none,
                listeners := [] } (.arr ["x"])).res = .ok (some (.bool true)) :=
  isFolded_spec_amended.1
    { tree := .obj [("x", .obj [("$folded", .bool true)])], stored := none, listeners := [] }
    ["x"] [("$folded", .bool true)] true rfl rfl rfl

/-- Claim C7, counterexample.  The claim quantifies over every valid
non-wildcard path.  On the empty tree and path `['a']` the addressed node
has no marker before the calls (`foldedValueAt` is `none`); after two
`toggleFold(['a'])` calls it carries `$folded: true` — the first call sets
the marker on the root (stay-at-parent quirk), the second toggles the
freshly created child from `false` to `true`.  The original value is not
restored. -/
theorem toggleFold_twice_missing_cex :
    foldedValueAt (JVal.obj []) ["a"] = none ∧
    foldedValueAt (toggleFold (toggleFold
        { tree := .obj [], stored := none, listeners := [] } (.arr ["a"])).store
        (.arr ["a"])).store.tree ["a"] = some (.bool true) ∧
    ¬ foldedValueAt (toggleFold (toggleFold
        { tree := .obj [], stored := none, listeners := [] } (.arr ["a"])).store
        (.arr ["a"])).store.tree ["a"] = none := by
  refine ⟨rfl, rfl, ?_⟩
  intro h
  have h2 : (some (JVal.bool true) : Option JVal) = none := h
  exact Option.noConfusion h2

/-- Claim C7 (amended): `toggleFold` is an involution on every valid
non-wildcard path whose addressed node exists with a boolean marker:
toggling twice (fresh path copies) restores the node's original folded
value.  On paths with missing segments the two calls resolve to different
nodes and the value is not restored: see the counterexample. -/
theorem toggleFold_involution_existing (st : FoldStore) (p : List String)
    (es : List (String × JVal)) (b : Bool)
    (hv : validPath p = true)
    (hex : getAt st.tree p = some (.obj es))
    (hm : lk es "$folded" = some (.bool b)) :
    foldedValueAt (toggleFold (toggleFold st (.arr p)).store (.arr p)).store.tree p =
      foldedValueAt st.tree p := by
  have hstar := star_not_mem_of_validPath hv
  have htog : toggleFold st (.arr p) = changeFold st p none := rfl
  have hv1 : (none : Option Bool).getD (!truthyOpt (lk es "$folded")) = !b := by
    rw [hm]
    rfl
  have hch1 := changeFold_existing hstar hex none
  rw [hv1] at hch1
  have hset1 : getAt (setChild st.tree p "$folded" (.bool !b)) p =
      some (.obj (setK es "$folded" (.bool !b))) :=
    getAt_setChild_self p st.tree es "$folded" (.bool !b) hex
  rw [htog, hch1]
  have hch2 := @changeFold_existing
    { st with
      tree := setChild st.tree p "$folded" (.bool !b),
      stored := some (setChild st.tree p "$folded" (.bool !b)) }
    p (setK es "$folded" (.bool !b)) hstar hset1 none
  have hv2 : (none : Option Bool).getD
      (!truthyOpt (lk (setK es "$folded" (.bool !b)) "$folded")) = b := by
    rw [lk_setK_self]
    simp [truthyOpt, truthy]
  rw [hv2] at hch2
  have htog2 : ∀ st' : FoldStore, toggleFold st' (.arr p) = changeFold st' p none :=
    fun _ => rfl
  rw [htog2, hch2]
  have hset2 : getAt (setChild (setChild st.tree p "$folded" (.bool !b)) p "$folded"
      (.bool b)) p =
      some (.obj (setK (setK es "$folded" (.bool !b)) "$folded" (.bool b))) :=
    getAt_setChild_self p _ _ "$folded" (.bool b) hset1
  simp only [foldedValueAt, hset2, hex, lk_setK_self, hm]

/-- Witness for the amended C7 theorem on a concrete existing path. -/
theorem toggleFold_involution_existing_w :
    foldedValueAt (toggleFold (toggleFold
        { tree := .obj [("a", foldedFalse)], stored := none, listeners := [] }
        (.arr ["a"])).store (.arr ["a"])).store.tree ["a"] =
      foldedValueAt (JVal.obj [("a", foldedFalse)]) ["a"] :=
  toggleFold_involution_existing
    { tree := .obj [("a", foldedFalse)], stored := none, listeners := [] }
    ["a"] [("$folded", .bool false)] false rfl rfl rfl

/-- Claim C8: passing a non-array value as the path to `fold`, `unfold`,
`toggleFold`, `isFolded`, or `isAllFolded` throws the `TypeError`
synchronously and leaves the whole state — tree, persisted value, and
listener registry — untouched, with no notification. -/
theorem nonArray_path_errors_no_mutation (st : FoldStore) :
    fold st .notArr =
      { res := .error "path should be an array.", store := st, notifs := [], pathAfter := [] } ∧
    unfold st .notArr =
      { res := .error "path should be an array.", store := st, notifs := [], pathAfter := [] } ∧
    toggleFold st .notArr =
      { res := .error "path should be an array.", store := st, notifs := [], pathAfter := [] } ∧
    isFolded st .notArr =
      { res := .error "path should be an array.", store := st, notifs := [], pathAfter := [] } ∧
    isAllFolded st .notArr =
      { res := .error "path should be an array.", store := st, notifs := [], pathAfter := [] } :=
  ⟨rfl, rfl, rfl, rfl, rfl⟩

/-- Claim C9, counterexample.  The claim says `reset()` writes a default
tree with five named root sections.  The value actually written is
`defaultState`, whose root has the single key `foldState`; the five
sections sit one level below it, and no section exists at the root of the
written tree. -/
theorem reset_shape_cex :
    (reset { tree := .obj [], stored := none, listeners := [] }).store.stored =
      some defaultState ∧
    objKeys defaultState = ["foldState"] ∧
    (objKeys defaultState).length = 1 ∧
    getAt defaultState ["info"] = none ∧
    getAt defaultState ["paths"] = none :=
  ⟨rfl, rfl, rfl, rfl, rfl⟩

/-- Claim C9 (amended): `reset()` overwrites the persisted value with
`defaultState` — an object whose single root key `foldState` holds the
five sections `info`, `securityDefinitions`, `tags`, `paths`,
`definitions`, each `{$folded: false}` — regardless of the prior state,
while leaving the in-memory tree and the listener registry unchanged and
invoking no subscriber. -/
theorem reset_spec_amended (st : FoldStore) :
    reset st =
      { res := .ok (), store := { st with stored := some defaultState },
        notifs := [], pathAfter := [] } ∧
    objKeys defaultState = ["foldState"] ∧
    getAt defaultState ["foldState", "info"] = some foldedFalse ∧
    getAt defaultState ["foldState", "securityDefinitions"] = some foldedFalse ∧
    getAt defaultState ["foldState", "tags"] = some foldedFalse ∧
    getAt defaultState ["foldState", "paths"] = some foldedFalse ∧
    getAt defaultState ["foldState", "definitions"] = some foldedFalse :=
  ⟨rfl, rfl, rfl, rfl, rfl, rfl, rfl⟩

/-- Claim C10: every `fold`, `unfold`, `toggleFold`, or `isFolded` call
with an array path that returns without throwing leaves the caller's array
empty — `walkToNode` consumes it segment by segment with `shift()` — so
reusing the same array object afterwards addresses the root. -/
theorem path_consumed_on_success (st : FoldStore) (p : List String) :
    ((fold st (.arr p)).res = .ok () → (fold st (.arr p)).pathAfter = []) ∧
    ((unfold st (.arr p)).res = .ok () → (unfold st (.arr p)).pathAfter = []) ∧
    ((toggleFold st (.arr p)).res = .ok () → (toggleFold st (.arr p)).pathAfter = []) ∧
    (∀ v, (isFolded st (.arr p)).res = .ok v → (isFolded st (.arr p)).pathAfter = []) :=
  ⟨fun h => changeFold_pathAfter st p (some true) h,
   fun h => changeFold_pathAfter st p (some false) h,
   fun h => changeFold_pathAfter st p none h,
   fun v h => isFolded_pathAfter st p v h⟩

/-- Witness for C10 on concrete successful calls. -/
theorem path_consumed_on_success_w :
    (fold { tree := .obj [("a", foldedFalse)], stored := none, listeners := [] }
      (.arr ["a"])).pathAfter = [] ∧
    (isFolded { tree := .obj [("a", foldedFalse)], stored := none, listeners := [] }
      (.arr ["a"])).pathAfter = [] :=
  ⟨(path_consumed_on_success
      { tree := .obj [("a", foldedFalse)], stored := none, listeners := [] } ["a"]).1 rfl,
   (path_consumed_on_success
      { tree := .obj [("a", foldedFalse)], stored := none, listeners := [] } ["a"]).2.2.2
      (some (.bool false)) rfl⟩

end FoldStateManager
